import Mathlib

/-!
Verification development for the nested cross-validation notebook
(`nested_cross_validation_gnn.ipynb`).

The control logic of the notebook is shallowly embedded here.  Conventions:

* Floating-point numbers are modelled by `ℚ`; none of the verified claims
  depends on rounding behaviour.
* A dataset element is a pair `(input, target) : α × ℚ` (a molecular graph
  together with its scalar regression target `g.y`).
* The GNN forward pass, the elementwise loss and the Adam optimizer are
  external collaborators (torch / torch_geometric); they are abstracted as
  the fields of `TorchCtx` and theorems quantify over them.
* Mutable model/optimizer state is threaded explicitly as `TrainState`.
* A Python run-time exception (ZeroDivisionError from `x / 0`, IndexError
  from out-of-range indexing) is modelled by `none` in an `Option` result;
  an `Option.bind` chain models exception propagation.
* The pseudo-random permutations produced by `sklearn` `KFold(...,
  shuffle=True, random_state=...)` are abstracted as explicit permutation
  parameters (`perm`, `innerPerm`, `outerPerm`); theorems either quantify
  over all permutations of the index range or take the permutation as a
  hypothesis.  `DataLoader(..., shuffle=True)` batch order is likewise
  abstracted: batches are formed in the given order, which is harmless for
  the order-insensitive properties proved here.
-/

namespace NestedCV

/-- External collaborators of the training loop (torch / torch_geometric):
the model forward pass `model(data.x, data.edge_index, data.edge_attr,
data.batch)` returning one prediction per graph, the loss function
`loss_fn(pred, data.y)`, one Adam update (backward + `optimizer.step()`,
parametrised by the `(lr, weight_decay)` hyperparameters and acting on
parameters and optimizer state), the deterministic fresh initialization
produced by `reset_parameters()`, and the initial Adam state of a freshly
constructed optimizer. -/
structure TorchCtx (α : Type) where
  forward : List ℚ → List α → List ℚ
  lossFn : List ℚ → List ℚ → ℚ
  optStep : ℚ × ℚ → List ℚ × ℕ → List (α × ℚ) → List ℚ × ℕ
  resetParams : List ℚ
  freshOpt : ℕ

/-- The mutable state shared across folds and trials: the model's learnable
parameters, its train/eval mode flag, and the optimizer state. -/
structure TrainState where
  params : List ℚ
  training : Bool
  opt : ℕ

variable {α : Type}

/-- Function `sklearn.metrics.mean_squared_error`: the mean of squared differences of
two aligned sequences. -/
def meanSquaredError (yTrue yPred : List ℚ) : ℚ :=
  ((yTrue.zip yPred).map fun p => (p.1 - p.2) ^ 2).sum / (yTrue.length : ℚ)

/-- One training step on a batch: `loss.backward(); optimizer.step()`,
abstracted as `ctx.optStep` acting on parameters and optimizer state. -/
def stepState (ctx : TorchCtx α) (hp : ℚ × ℚ) (st : TrainState)
    (b : List (α × ℚ)) : TrainState :=
  let po := ctx.optStep hp (st.params, st.opt) b
  { params := po.1, training := st.training, opt := po.2 }

/-- The batch loop of `train_one_epoch`: for each batch, compute the
prediction and the loss with the current parameters, apply one optimizer
step, and accumulate `running_loss += float(loss) * data.num_graphs` and
`num_data += data.num_graphs`. -/
def trainEpochLoop (ctx : TorchCtx α) (hp : ℚ × ℚ) :
    TrainState → ℚ → ℕ → List (List (α × ℚ)) → TrainState × ℚ × ℕ
  | st, run, num, [] => (st, run, num)
  | st, run, num, b :: bs =>
      let pred := ctx.forward st.params (b.map Prod.fst)
      let loss := ctx.lossFn pred (b.map Prod.snd)
      trainEpochLoop ctx hp (stepState ctx hp st b)
        (run + loss * (b.length : ℚ)) (num + b.length) bs

/-- Function `train_one_epoch(model, train_loader, optimizer, loss_fn)`: runs the
batch loop and returns `running_loss / num_data`.  The division is not
guarded; `num_data = 0` raises ZeroDivisionError, modelled by `none`. -/
def train_one_epoch (ctx : TorchCtx α) (hp : ℚ × ℚ) (st : TrainState)
    (batches : List (List (α × ℚ))) : TrainState × Option ℚ :=
  let r := trainEpochLoop ctx hp st 0 0 batches
  (r.1, if r.2.2 = 0 then none else some (r.2.1 / (r.2.2 : ℚ)))

/-- The per-batch `(loss, num_graphs)` trace of one epoch, with the model
state evolving through the same optimizer steps as `train_one_epoch`. -/
def epochTrace (ctx : TorchCtx α) (hp : ℚ × ℚ) :
    TrainState → List (List (α × ℚ)) → List (ℚ × ℕ)
  | _, [] => []
  | st, b :: bs =>
      (ctx.lossFn (ctx.forward st.params (b.map Prod.fst)) (b.map Prod.snd),
        b.length) :: epochTrace ctx hp (stepState ctx hp st b) bs

/-- Sample-count-weighted mean of per-batch losses:
`(Σ loss_i · n_i) / (Σ n_i)`. -/
def weightedMean (tr : List (ℚ × ℕ)) : ℚ :=
  (tr.map fun p => p.1 * (p.2 : ℚ)).sum / (((tr.map Prod.snd).sum : ℕ) : ℚ)

/-- The naive unweighted per-batch average `(Σ loss_i) / (#batches)`. -/
def naiveBatchMean (tr : List (ℚ × ℕ)) : ℚ :=
  (tr.map Prod.fst).sum / (tr.length : ℚ)

/-- The epoch loop of `train`: run `train_one_epoch` `num_epochs` times
(each per-epoch loss is only logged); an exception aborts. -/
def trainEpochs (ctx : TorchCtx α) (hp : ℚ × ℚ) :
    ℕ → TrainState → List (List (α × ℚ)) → Option TrainState
  | 0, st, _ => some st
  | n + 1, st, bs =>
      match train_one_epoch ctx hp st bs with
      | (st', some _) => trainEpochs ctx hp n st' bs
      | (_, none) => none

/-- Function `train(num_epochs, model, train_loader, optimizer, loss_fn)`: sets
`model.train()` and runs the epochs. -/
def train (ctx : TorchCtx α) (hp : ℚ × ℚ) (numEpochs : ℕ) (st : TrainState)
    (bs : List (List (α × ℚ))) : Option TrainState :=
  trainEpochs ctx hp numEpochs { st with training := true } bs

/-- Function `validate(model, loader, loss_fn)` (decorated `@torch.no_grad()`): sets
`model.eval()`, accumulates `float(loss) * data.num_graphs` and the sample
count over the batches, and returns `valid_loss / num_data`.  The division
is not guarded (`none` models ZeroDivisionError).  No optimizer step is
performed, so the learnable parameters are left untouched. -/
def validate (ctx : TorchCtx α) (st : TrainState)
    (batches : List (List (α × ℚ))) : TrainState × Option ℚ :=
  let stE : TrainState := { st with training := false }
  let acc := batches.foldl
    (fun (a : ℚ × ℕ) b =>
      (a.1 + ctx.lossFn (ctx.forward stE.params (b.map Prod.fst))
          (b.map Prod.snd) * (b.length : ℚ),
        a.2 + b.length))
    (0, 0)
  (stE, if acc.2 = 0 then none else some (acc.1 / (acc.2 : ℚ)))

/-- Function `test(model, loader, loss_fn)` (decorated `@torch.no_grad()`): sets
`model.eval()`; per batch it builds `torch.cat((pred, data.y), dim=1)`, a
matrix with one row `(pred_i, y_i)` per graph (the per-batch loss is also
computed but unused), then stacks all rows with `torch.cat(output, dim=0)`
and returns `mean_squared_error(stacked_output[1], stacked_output[0])`.
Note that `stacked_output[1]` and `stacked_output[0]` are the ROWS at
positions 1 and 0 of the stacked matrix, not its columns; with fewer than
two stacked rows the indexing raises (modelled by `none`). -/
def test (ctx : TorchCtx α) (st : TrainState)
    (batches : List (List (α × ℚ))) : TrainState × Option ℚ :=
  let stE : TrainState := { st with training := false }
  let rows : List (ℚ × ℚ) :=
    (batches.map fun b =>
      let pred := ctx.forward stE.params (b.map Prod.fst)
      let _loss := ctx.lossFn pred (b.map Prod.snd)
      pred.zip (b.map Prod.snd)).flatten
  (stE,
    match rows with
    | r0 :: r1 :: _ => some (meanSquaredError [r1.1, r1.2] [r0.1, r0.2])
    | _ => none)

/-- Mean `np.mean` of a list of floats. -/
def listMean (l : List ℚ) : ℚ := l.sum / (l.length : ℚ)

/-- Batching performed by `DataLoader(data, batch_size=bs)`: consecutive
chunks of at most `bs` elements (the last batch may be smaller).  The
fuel argument makes the recursion structural; `chunkList` instantiates it
with the list length, which always suffices. -/
def chunkListAux (bs : ℕ) : ℕ → List α → List (List α)
  | 0, _ => []
  | _, [] => []
  | fuel + 1, x :: xs => (x :: xs.take (bs - 1)) :: chunkListAux bs fuel (xs.drop (bs - 1))

/-- Batching of `DataLoader` with batch size `bs` (batch order abstracted). -/
def chunkList (bs : ℕ) (l : List α) : List (List α) := chunkListAux bs l.length l

/-- Fold sizes of `sklearn` `KFold` for `K` folds over `N` samples: the first
`N mod K` folds have `⌈N/K⌉` elements, the rest `⌊N/K⌋`. -/
def foldSizes (K N : ℕ) : List ℕ :=
  (List.range K).map fun i => N / K + if i < N % K then 1 else 0

/-- Cut a list into consecutive chunks of the given sizes. -/
def chunksBy : List ℕ → List ℕ → List (List ℕ)
  | [], _ => []
  | s :: ss, l => l.take s :: chunksBy ss (l.drop s)

/-- Model of `KFold(n_splits=K, shuffle=True).split(range(N))` with the shuffled
index order abstracted as `perm` (a permutation of `range N`): each fold's
validation indices are one chunk of `perm`, the training indices are the
complement; both are yielded in increasing order, as `sklearn` converts
the chunk to a boolean mask over `arange(N)`.  Yields `(train, test)`
pairs. -/
def kfoldSplit (K : ℕ) (perm : List ℕ) : List (List ℕ × List ℕ) :=
  (chunksBy (foldSizes K perm.length) perm).map fun t =>
    ((List.range perm.length).filter fun i => decide (i ∉ t),
     (List.range perm.length).filter fun i => decide (i ∈ t))

/-- Model of `torch.utils.data.Subset(base, ids)`: a view of `base` through the
index list `ids`. -/
structure Subset (α : Type) where
  base : List α
  ids : List ℕ

/-- The elements of a `Subset` in order; `none` models an IndexError for an
out-of-range index.  (`len(subset)` is `ids.length`.) -/
def Subset.items (s : Subset α) : Option (List α) := s.ids.mapM s.base.get?

/-- The per-inner-fold `(train_data, valid_data)` Subsets constructed by
`cv_objective`.  Source:

```python
for fold_idx, (train_idx, valid_idx) in enumerate(fold.split(range(len(train_val_data)))):
    train_data = torch.utils.data.Subset(dataset, train_idx)
    valid_data = torch.utils.data.Subset(dataset, valid_idx)
```

The Subsets are built from the global `dataset`, not from the
`train_val_data` argument: the fold indices (positions within the pool)
are applied directly to the full dataset.  This source behaviour is
embedded verbatim. -/
def innerFoldSubsets (dataset : List (α × ℚ)) (k_inner : ℕ)
    (innerPerm : List ℕ) : List (Subset (α × ℚ) × Subset (α × ℚ)) :=
  (kfoldSplit k_inner innerPerm).map fun p => (⟨dataset, p.1⟩, ⟨dataset, p.2⟩)

/-- The fold loop of `cv_objective`: for each inner fold, materialise the
two Subsets through 32-element `DataLoader` batches, `model.reset_parameters()`,
train for `num_epochs` epochs, evaluate with `validate`, and collect the
validation losses, threading the shared model/optimizer state. -/
def innerFoldLoop (ctx : TorchCtx α) (hp : ℚ × ℚ) (numEpochs : ℕ) :
    TrainState → List (Subset (α × ℚ) × Subset (α × ℚ)) →
    Option (TrainState × List ℚ)
  | st, [] => some (st, [])
  | st, (train_data, valid_data) :: rest => do
      let trItems ← train_data.items
      let vaItems ← valid_data.items
      let st1 : TrainState := { st with params := ctx.resetParams }
      let st2 ← train ctx hp numEpochs st1 (chunkList 32 trItems)
      let v := validate ctx st2 (chunkList 32 vaItems)
      let l ← v.2
      let r ← innerFoldLoop ctx hp numEpochs v.1 rest
      return (r.1, l :: r.2)

/-- Function `cv_objective(trial, k_inner, model, train_val_data, loss_fn, num_epochs)`:
draws `(lr, weight_decay)` from the trial (here the argument `hp`), builds a
fresh Adam optimizer bound to the model, splits
`range(len(train_val_data))` with `KFold(k_inner, shuffle=True,
random_state=0)` (shuffle abstracted as `innerPerm`, a permutation of
`range (len train_val_data)`), runs the inner fold loop and returns
`np.mean(inner_cv_loss)`.  The fold Subsets reference the global `dataset`
(see `innerFoldSubsets`). -/
def cv_objective (ctx : TorchCtx α) (dataset : List (α × ℚ)) (hp : ℚ × ℚ)
    (k_inner : ℕ) (innerPerm : List ℕ) (st : TrainState)
    (train_val_data : Subset (α × ℚ)) (numEpochs : ℕ) :
    TrainState × Option ℚ :=
  let _poolLen := train_val_data.ids.length
  let st0 : TrainState := { st with opt := ctx.freshOpt }
  match innerFoldLoop ctx hp numEpochs st0
      (innerFoldSubsets dataset k_inner innerPerm) with
  | none => (st0, none)
  | some (st', ls) => (st', some (listMean ls))

/-- Modelled external collaborator (the `optuna` search driver): evaluate
the objective on each proposed configuration in turn, threading the shared
model state and recording `(configuration, value)` per completed trial; an
exception from the objective aborts the study. -/
def runTrials (objective : ℚ × ℚ → TrainState → TrainState × Option ℚ) :
    List (ℚ × ℚ) → TrainState → TrainState × Option (List ((ℚ × ℚ) × ℚ))
  | [], st => (st, some [])
  | hp :: rest, st =>
      match objective hp st with
      | (st', some v) =>
          match runTrials objective rest st' with
          | (st'', some ts) => (st'', some ((hp, v) :: ts))
          | (st'', none) => (st'', none)
      | (st', none) => (st', none)

/-- Modelled external collaborator: `study.optimize(objective, n_trials,
timeout)` evaluates the objective on the first `n_trials` proposals of the
driver's proposal stream.  The wall-clock timeout (which can only reduce
the number of completed trials) is not modelled. -/
def studyOptimize (objective : ℚ × ℚ → TrainState → TrainState × Option ℚ)
    (proposals : List (ℚ × ℚ)) (nTrials : ℕ) (st : TrainState) :
    TrainState × Option (List ((ℚ × ℚ) × ℚ)) :=
  runTrials objective (proposals.take nTrials) st

/-- Modelled external collaborator: `study.best_trial` of a study created
with `direction="minimize"` — the first trial attaining the minimum
observed value; `none` (an error) when no trial completed. -/
def bestTrial : List ((ℚ × ℚ) × ℚ) → Option ((ℚ × ℚ) × ℚ)
  | [] => none
  | t :: ts => some (ts.foldl (fun b u => if u.2 < b.2 then u else b) t)

/-- The experiment configuration dictionary handed to
`nested_cv_experiment` (the `loss_fn`, `optimizer_class` and `objective`
entries are embedded through `TorchCtx` and the direct call to
`cv_objective`; `model` is the initial shared state). -/
structure ExpConfig (α : Type) where
  dataset : List (α × ℚ)
  initState : TrainState
  num_epochs : ℕ
  batch_size : ℕ
  k_inner : ℕ
  k_outer : ℕ
  n_trials : ℕ
  timeout_optuna : ℕ

/-- The hyperparameter-search phase of one outer fold:

```python
study = optuna.create_study(direction="minimize")
cv_objective = partial(objective, k_inner=k_inner, model=model,
                       train_val_data=train_data, loss_fn=loss_fn, num_epochs=num_epochs)
study.optimize(cv_objective, n_trials=2, timeout=timeout_optuna)
```

The trial count passed to the driver is the literal `2` from the source
call site; the configuration's `n_trials` entry is unpacked by
`nested_cv_experiment` but not consulted here.  `ip` abstracts the inner
`KFold` shuffle and `ps` the driver's proposal stream for this fold. -/
def outerFoldStudy (ctx : TorchCtx α) (dataset : List (α × ℚ))
    (k_inner num_epochs : ℕ) (train_ids : List ℕ) (ip : List ℕ)
    (ps : List (ℚ × ℚ)) (st : TrainState) :
    TrainState × Option (List ((ℚ × ℚ) × ℚ)) :=
  studyOptimize
    (fun hp s =>
      cv_objective ctx dataset hp k_inner ip s
        (Subset.mk dataset train_ids) num_epochs)
    ps 2 st

/-- The body of one outer fold of `nested_cv_experiment`: build the train
and test Subsets from the fold's index partition, reset the model, run the
hyperparameter search, take `study.best_trial`, build a fresh optimizer
from the best `(lr, weight_decay)` and reset the model again, retrain on
the full outer train-subset (`DataLoader(train_data, batch_size=32)`),
and evaluate with `test` (`DataLoader(test_data, batch_size=32)`). -/
def outerFoldStep (ctx : TorchCtx α) (dataset : List (α × ℚ))
    (k_inner num_epochs : ℕ) (st : TrainState) (sp : List ℕ × List ℕ)
    (ip : List ℕ) (ps : List (ℚ × ℚ)) : Option (TrainState × ℚ) := do
  let train_data : Subset (α × ℚ) := ⟨dataset, sp.1⟩
  let test_data : Subset (α × ℚ) := ⟨dataset, sp.2⟩
  let st1 : TrainState := { st with params := ctx.resetParams }
  let s := outerFoldStudy ctx dataset k_inner num_epochs sp.1 ip ps st1
  let trials ← s.2
  let best ← bestTrial trials
  let st3 : TrainState := { s.1 with params := ctx.resetParams, opt := ctx.freshOpt }
  let trItems ← train_data.items
  let st4 ← train ctx best.1 num_epochs st3 (chunkList 32 trItems)
  let teItems ← test_data.items
  let t := test ctx st4 (chunkList 32 teItems)
  let mse ← t.2
  return (t.1, mse)

/-- The outer fold loop: iterate `outerFoldStep` over the outer `KFold`
splits, consuming one inner-shuffle abstraction and one proposal stream
per fold, collecting the per-fold test MSEs; any exception aborts the
whole experiment (no partial-failure recovery). -/
def outerFoldLoop (ctx : TorchCtx α) (dataset : List (α × ℚ))
    (k_inner num_epochs : ℕ) :
    TrainState → List (List ℕ × List ℕ) → List (List ℕ) →
    List (List (ℚ × ℚ)) → Option (TrainState × List ℚ)
  | st, [], _, _ => some (st, [])
  | st, sp :: rest, ips, pss =>
      match outerFoldStep ctx dataset k_inner num_epochs st sp (ips.headD []) (pss.headD []) with
      | none => none
      | some (st5, mse) =>
          match outerFoldLoop ctx dataset k_inner num_epochs st5 rest ips.tail pss.tail with
          | none => none
          | some r => some (r.1, mse :: r.2)

/-- Observable outcome of `nested_cv_experiment`: the collected per-fold
test metrics (`eval_loss`), the final logged value
`logger.info(f"Mean MSE across Outer CV: {np.mean(eval_loss)}")`, and the
Python return value of the function. -/
structure ExpResult where
  evalLoss : Option (List ℚ)
  loggedMean : Option ℚ
  retval : Option ℚ

/-- Function `nested_cv_experiment(config)`: unpack the configuration (including
`batch_size`, which is never used afterwards — every `DataLoader` below
and in `cv_objective` is built with the literal `32`), split the full
dataset with `KFold(k_outer, shuffle=True, random_state=22)` (shuffle
abstracted as `outerPerm`), run the outer fold loop, and log the mean of
the collected metrics.  The Python function has no `return` statement, so
its return value is `None`. -/
def nested_cv_experiment (ctx : TorchCtx α) (cfg : ExpConfig α)
    (outerPerm : List ℕ) (innerPerms : List (List ℕ))
    (proposalss : List (List (ℚ × ℚ))) : ExpResult :=
  let dataset := cfg.dataset
  let num_epochs := cfg.num_epochs
  let _batch_size := cfg.batch_size
  let k_inner := cfg.k_inner
  let k_outer := cfg.k_outer
  let _n_trials := cfg.n_trials
  let _timeout_optuna := cfg.timeout_optuna
  let splits := kfoldSplit k_outer outerPerm
  match outerFoldLoop ctx dataset k_inner num_epochs cfg.initState splits innerPerms proposalss with
  | none => { evalLoss := none, loggedMean := none, retval := none }
  | some r =>
      { evalLoss := some r.2, loggedMean := some (listMean r.2), retval := none }

/-- Method `MoleculeDataset.process`: the `from_smiles` graph construction and the
target extraction are abstracted as `rowToGraph`; `rawFiles` holds the
rows of each raw CSV file.  Source:

```python
for raw_path in self.raw_paths:
    df = pd.read_csv(self.raw_paths[0]).reset_index()
    for i, smile in enumerate(df[self.smiles_label]): ...
```

The body reads `self.raw_paths[0]` — the FIRST raw file — once per raw
path, and saves its graphs under consecutive indices. -/
def processGraphs {Row Graph : Type} (rowToGraph : Row → Graph)
    (rawFiles : List (List Row)) : List Graph :=
  (rawFiles.map fun _ => (rawFiles.headD []).map rowToGraph).flatten

/-- A concrete instantiation of the abstract torch collaborators, used by
witnesses and counterexamples: the dataset item type is `ℚ`, the forward
pass maps each item to itself, the loss is the MSE, and the optimizer
step leaves parameters and optimizer state unchanged. -/
def idCtx : TorchCtx ℚ :=
  { forward := fun _ xs => xs
    lossFn := meanSquaredError
    optStep := fun _ po _ => po
    resetParams := []
    freshOpt := 0 }

/-- A concrete initial model state. -/
def st0 : TrainState := { params := [], training := true, opt := 0 }

/-- A four-element dataset whose inputs and targets are all zero. -/
def dataset0 : List (ℚ × ℚ) := [(0, 0), (0, 0), (0, 0), (0, 0)]

/-- A six-element dataset with six distinguishable items. -/
def dataset6 : List (ℚ × ℚ) :=
  [(10, 0), (20, 0), (30, 0), (40, 0), (50, 0), (60, 0)]

/-- The outer train-subset pool used in the inner-CV leakage analysis:
`Subset(dataset6, [2, 3, 4, 5])`. -/
def trainValPool6 : Subset (ℚ × ℚ) := ⟨dataset6, [2, 3, 4, 5]⟩

/-- A concrete experiment configuration over `dataset0`. -/
def cfg0 : ExpConfig ℚ :=
  { dataset := dataset0
    initState := st0
    num_epochs := 1
    batch_size := 32
    k_inner := 2
    k_outer := 2
    n_trials := 2
    timeout_optuna := 300 }

/-- Configuration `cfg0` with a search budget of a single trial. -/
def cfg4 : ExpConfig ℚ := { cfg0 with n_trials := 1 }

/-- A concrete outer shuffle abstraction for `dataset0`. -/
def op0 : List ℕ := [0, 1, 2, 3]

/-- Concrete inner shuffle abstractions, one per outer fold. -/
def ips0 : List (List ℕ) := [[0, 1], [0, 1]]

/-- Concrete proposal streams, one per outer fold. -/
def pss0 : List (List (ℚ × ℚ)) := [[(1, 1), (2, 2)], [(1, 1), (2, 2)]]

/-- Cutting a list into chunks yields one chunk per requested size. -/
theorem chunksBy_length : ∀ (ss : List ℕ) (l : List ℕ),
    (chunksBy ss l).length = ss.length
  | [], _ => rfl
  | _ :: ss, l => by simp [chunksBy, chunksBy_length ss]

/-- The K-fold splitter yields exactly `K` splits. -/
theorem kfoldSplit_length (K : ℕ) (perm : List ℕ) :
    (kfoldSplit K perm).length = K := by
  simp [kfoldSplit, chunksBy_length, foldSizes]

/-- Summing a constant plus an indicator over an initial range. -/
theorem sum_range_const_add_ite (q r : ℕ) : ∀ t : ℕ,
    ((List.range t).map fun i => q + if i < r then 1 else 0).sum =
      t * q + min r t := by
  intro t
  induction t with
  | zero => simp
  | succ n ih =>
      rw [List.range_succ]
      simp only [List.map_append, List.sum_append, ih, List.map_cons,
        List.map_nil, List.sum_cons, List.sum_nil, add_mul, one_mul]
      by_cases h : n < r <;> simp [h] <;> omega

/-- The `sklearn` K-fold sizes add up to the number of samples. -/
theorem foldSizes_sum (K N : ℕ) (hK : 0 < K) : (foldSizes K N).sum = N := by
  have h := sum_range_const_add_ite (N / K) (N % K) K
  have hr : N % K < K := Nat.mod_lt _ hK
  rw [foldSizes, h, Nat.min_eq_left hr.le, Nat.div_add_mod]

/-- Concatenating the chunks recovers an initial segment of the list. -/
theorem chunksBy_flatten : ∀ (ss : List ℕ) (l : List ℕ),
    (chunksBy ss l).flatten = l.take ss.sum
  | [], l => by simp [chunksBy]
  | s :: ss, l => by
      simp [chunksBy, chunksBy_flatten ss, List.take_add]

/-- The loop of `train_one_epoch` accumulates exactly the weighted sum of
the per-batch losses of the epoch trace, and the total sample count. -/
theorem trainEpochLoop_spec (ctx : TorchCtx α) (hp : ℚ × ℚ) :
    ∀ (bs : List (List (α × ℚ))) (st : TrainState) (run : ℚ) (num : ℕ),
    (trainEpochLoop ctx hp st run num bs).2 =
      (run + ((epochTrace ctx hp st bs).map fun p => p.1 * (p.2 : ℚ)).sum,
        num + ((epochTrace ctx hp st bs).map Prod.snd).sum) := by
  intro bs
  induction bs with
  | nil => intro st run num; simp [trainEpochLoop, epochTrace]
  | cons b bs ih =>
      intro st run num
      simp only [trainEpochLoop, epochTrace, ih, List.map_cons, List.sum_cons,
        Prod.mk.injEq]
      constructor
      · ring
      · omega

/-- The sample counts of the epoch trace are the batch sizes. -/
theorem epochTrace_map_snd (ctx : TorchCtx α) (hp : ℚ × ℚ) :
    ∀ (bs : List (List (α × ℚ))) (st : TrainState),
    (epochTrace ctx hp st bs).map Prod.snd = bs.map List.length := by
  intro bs
  induction bs with
  | nil => intro st; simp [epochTrace]
  | cons b bs ih => intro st; simp [epochTrace, ih]

/-- A successful outer fold loop yields one metric per split. -/
theorem outerFoldLoop_length (ctx : TorchCtx α) (dataset : List (α × ℚ))
    (k_inner num_epochs : ℕ) :
    ∀ (splits : List (List ℕ × List ℕ)) (st : TrainState)
      (ips : List (List ℕ)) (pss : List (List (ℚ × ℚ)))
      (r : TrainState × List ℚ),
    outerFoldLoop ctx dataset k_inner num_epochs st splits ips pss = some r →
      r.2.length = splits.length := by
  intro splits
  induction splits with
  | nil =>
      intro st ips pss r h
      simp only [outerFoldLoop, Option.some.injEq] at h
      rw [← h]
      rfl
  | cons sp rest ih =>
      intro st ips pss r h
      simp only [outerFoldLoop] at h
      cases h1 : outerFoldStep ctx dataset k_inner num_epochs st sp (ips.headD []) (pss.headD []) with
      | none => simp only [h1] at h; cases h
      | some s5 =>
          obtain ⟨st5, mse⟩ := s5
          simp only [h1] at h
          cases h2 : outerFoldLoop ctx dataset k_inner num_epochs st5 rest ips.tail pss.tail with
          | none => simp only [h2] at h; cases h
          | some r' =>
              simp only [h2, Option.some.injEq] at h
              rw [← h]
              simp [ih st5 ips.tail pss.tail r' h2]

/-- C5: for every non-empty batched training set, `train_one_epoch` returns
the sample-count-weighted mean of the per-batch losses — the sum over
batches of (batch loss × batch sample count) divided by the total sample
count — and this aggregation differs from the naive unweighted per-batch
average on the unequal batch-size profile `[4, 4, 2]` (the `N = 10`,
`batch_size = 4` example). -/
theorem train_one_epoch_weighted_mean (ctx : TorchCtx α) (hp : ℚ × ℚ)
    (st : TrainState) (batches : List (List (α × ℚ)))
    (h : 0 < (batches.map List.length).sum) :
    (train_one_epoch ctx hp st batches).2 =
      some (weightedMean (epochTrace ctx hp st batches)) ∧
    ∃ tr : List (ℚ × ℕ), tr.map Prod.snd = [4, 4, 2] ∧
      weightedMean tr ≠ naiveBatchMean tr := by
  constructor
  · have hs := trainEpochLoop_spec ctx hp batches st 0 0
    have hn : ((epochTrace ctx hp st batches).map Prod.snd).sum =
        (batches.map List.length).sum := by
      rw [epochTrace_map_snd]
    have hnz : ((epochTrace ctx hp st batches).map Prod.snd).sum ≠ 0 := by
      omega
    simp [train_one_epoch, hs, hnz, weightedMean]
  · refine ⟨[(1, 4), (1, 4), (0, 2)], by simp, ?_⟩
    norm_num [weightedMean, naiveBatchMean]

/-- Witness for C5 at a concrete input: one batch of one sample. -/
theorem train_one_epoch_weighted_mean_witness :
    (train_one_epoch idCtx (1, 1) st0 [[((0 : ℚ), (0 : ℚ))]]).2 =
      some (weightedMean (epochTrace idCtx (1, 1) st0 [[((0 : ℚ), (0 : ℚ))]])) ∧
    ∃ tr : List (ℚ × ℕ), tr.map Prod.snd = [4, 4, 2] ∧
      weightedMean tr ≠ naiveBatchMean tr :=
  train_one_epoch_weighted_mean idCtx (1, 1) st0 [[((0 : ℚ), (0 : ℚ))]]
    (by decide)

/-- C6: for `K ≥ 2` and `N ≥ K`, the K-fold split used by the program
(outer over the whole dataset, inner over the outer train-subset, both
through the same splitter with the shuffled order abstracted as a
permutation of `range N`) yields exactly `K` splits whose validation sets
are pairwise disjoint, whose validation sets together cover exactly
`{0..N-1}`, and whose training set is in each split the complement of its
validation set. -/
theorem kfold_partition (K N : ℕ) (perm : List ℕ) (hK : 2 ≤ K) (_hKN : K ≤ N)
    (hperm : List.Perm perm (List.range N)) :
    (kfoldSplit K perm).length = K ∧
    List.Pairwise (fun p q => ∀ x ∈ p.2, x ∉ q.2) (kfoldSplit K perm) ∧
    (∀ x, (∃ p ∈ kfoldSplit K perm, x ∈ p.2) ↔ x ∈ List.range N) ∧
    (∀ p ∈ kfoldSplit K perm, p.1.toFinset = Finset.range N \ p.2.toFinset) := by
  have hlen : perm.length = N := by simpa using hperm.length_eq
  have hflat : (chunksBy (foldSizes K perm.length) perm).flatten = perm := by
    rw [hlen, chunksBy_flatten, foldSizes_sum K N (by omega), ← hlen,
      List.take_length]
  have hnodup : perm.Nodup := hperm.nodup_iff.mpr (List.nodup_range N)
  have hflatnodup : (chunksBy (foldSizes K perm.length) perm).flatten.Nodup := by
    rw [hflat]; exact hnodup
  have hchunks := List.nodup_flatten.mp hflatnodup
  refine ⟨kfoldSplit_length K perm, ?_, ?_, ?_⟩
  · rw [kfoldSplit, List.pairwise_map]
    refine hchunks.2.imp ?_
    intro a b hab x hxa hxb
    simp only [List.mem_filter, decide_eq_true_eq] at hxa hxb
    exact hab hxa.2 hxb.2
  · intro x
    constructor
    · rintro ⟨p, hp, hxp⟩
      rw [kfoldSplit] at hp
      rcases List.mem_map.mp hp with ⟨t, ht, rfl⟩
      simp only [List.mem_filter, decide_eq_true_eq] at hxp
      have := hxp.1
      rwa [hlen] at this
    · intro hx
      have hxperm : x ∈ perm := hperm.mem_iff.mpr hx
      have hxflat : x ∈ (chunksBy (foldSizes K perm.length) perm).flatten := by
        rw [hflat]; exact hxperm
      rcases List.mem_flatten.mp hxflat with ⟨t, ht, hxt⟩
      refine ⟨_, List.mem_map_of_mem _ ht, ?_⟩
      simp only [List.mem_filter, decide_eq_true_eq]
      exact ⟨by rwa [hlen], hxt⟩
  · intro p hp
    rw [kfoldSplit] at hp
    rcases List.mem_map.mp hp with ⟨t, ht, rfl⟩
    ext x
    simp only [List.mem_toFinset, List.mem_filter, decide_eq_true_eq,
      Finset.mem_sdiff, Finset.mem_range, List.mem_range, hlen]
    tauto

/-- Witness for C6: `K = 2`, `N = 3`, shuffled order `[1, 0, 2]`. -/
theorem kfold_partition_witness :
    (kfoldSplit 2 [1, 0, 2]).length = 2 ∧
    List.Pairwise (fun p q => ∀ x ∈ p.2, x ∉ q.2) (kfoldSplit 2 [1, 0, 2]) ∧
    (∀ x, (∃ p ∈ kfoldSplit 2 [1, 0, 2], x ∈ p.2) ↔ x ∈ List.range 3) ∧
    (∀ p ∈ kfoldSplit 2 [1, 0, 2],
      p.1.toFinset = Finset.range 3 \ p.2.toFinset) :=
  kfold_partition 2 3 [1, 0, 2] (by decide) (by decide) (by decide)

/-- C7: a batched dataset with zero total samples reaches the final
division in both the trainer and the evaluator unguarded: the accumulated
sample count is `0` and `running_loss / num_data` raises ZeroDivisionError
(the `none` outcome) instead of the zero-sample case being rejected as a
configuration error before training starts. -/
theorem zero_samples_division_unguarded (ctx : TorchCtx α) (hp : ℚ × ℚ)
    (st : TrainState) :
    (train_one_epoch ctx hp st []).2 = none ∧ (validate ctx st []).2 = none :=
  ⟨rfl, rfl⟩

/-- C8: the evaluators `validate` and `test` leave the model's learnable
parameters unchanged — they only flip the train/eval mode flag. -/
theorem evaluator_preserves_params (ctx : TorchCtx α) (st : TrainState)
    (batches : List (List (α × ℚ))) :
    ((validate ctx st batches).1).params = st.params ∧
    ((test ctx st batches).1).params = st.params :=
  ⟨rfl, rfl⟩

/-- C9: `MoleculeDataset.process` reads the first raw file's rows once per
raw path, so the processed dataset is the first file's graph list repeated
once per raw file, and every processed graph comes from a row of the first
file — the rows of the second and later files are never converted. -/
theorem process_reads_first_file_only {Row Graph : Type}
    (rowToGraph : Row → Graph) (rawFiles : List (List Row)) :
    processGraphs rowToGraph rawFiles =
      (List.replicate rawFiles.length
        ((rawFiles.headD []).map rowToGraph)).flatten ∧
    ∀ g ∈ processGraphs rowToGraph rawFiles,
      ∃ row ∈ rawFiles.headD [], g = rowToGraph row := by
  constructor
  · simp [processGraphs, List.map_const']
  · intro g hg
    simp only [processGraphs, List.mem_flatten, List.mem_map] at hg
    obtain ⟨l, ⟨a, _, rfl⟩, hgl⟩ := hg
    obtain ⟨row, hrow, hfg⟩ := List.mem_map.mp hgl
    exact ⟨row, hrow, hfg.symm⟩

/-- C10: two configurations that differ only in the `batch_size` entry
produce the identical experiment outcome: `nested_cv_experiment` unpacks
`batch_size` but never uses it (every `DataLoader` is built with the
literal `32`), so the computation is insensitive to that field. -/
theorem batch_size_has_no_effect (ctx : TorchCtx α) (cfg : ExpConfig α)
    (outerPerm : List ℕ) (innerPerms : List (List ℕ))
    (proposalss : List (List (ℚ × ℚ))) (b b' : ℕ) :
    nested_cv_experiment ctx { cfg with batch_size := b }
        outerPerm innerPerms proposalss =
      nested_cv_experiment ctx { cfg with batch_size := b' }
        outerPerm innerPerms proposalss := by
  simp only [nested_cv_experiment]

/-- C1 (violated by the source): with a six-element dataset and the outer
train-subset pool `Subset(dataset6, [2, 3, 4, 5])` of length 4, the inner
fold Subsets built by `cv_objective` — for every possible inner shuffle
order — reference the global dataset entry at index 0, the item `(10, 0)`,
which is not among the pool's items: an element outside `train_val_data`
is used for inner training or validation. -/
theorem inner_folds_use_global_dataset (perm : List ℕ)
    (hperm : List.Perm perm (List.range 4)) :
    ∃ p ∈ innerFoldSubsets dataset6 2 perm,
      ∃ i, (i ∈ p.1.ids ∨ i ∈ p.2.ids) ∧
        dataset6.get? i = some (10, 0) ∧
        trainValPool6.items = some [(30, 0), (40, 0), (50, 0), (60, 0)] ∧
        ((10 : ℚ), (0 : ℚ)) ∉
          [((30 : ℚ), (0 : ℚ)), (40, 0), (50, 0), (60, 0)] := by
  have hlen : perm.length = 4 := by simpa using hperm.length_eq
  have hfs : foldSizes 2 perm.length = [2, 2] := by rw [hlen]; decide
  have hchunk : perm.take 2 ∈ chunksBy (foldSizes 2 perm.length) perm := by
    rw [hfs]
    simp [chunksBy]
  refine ⟨(⟨dataset6, (List.range perm.length).filter fun i =>
        decide (i ∉ perm.take 2)⟩,
      ⟨dataset6, (List.range perm.length).filter fun i =>
        decide (i ∈ perm.take 2)⟩), ?_, 0, ?_, rfl, rfl, ?_⟩
  · exact List.mem_map_of_mem _ (List.mem_map_of_mem _ hchunk)
  · by_cases h0 : 0 ∈ perm.take 2
    · right
      simp [List.mem_filter, h0, hlen]
    · left
      simp [List.mem_filter, h0, hlen]
  · norm_num

/-- Witness for C1 at the identity inner shuffle order. -/
theorem inner_folds_use_global_dataset_witness :
    ∃ p ∈ innerFoldSubsets dataset6 2 [0, 1, 2, 3],
      ∃ i, (i ∈ p.1.ids ∨ i ∈ p.2.ids) ∧
        dataset6.get? i = some (10, 0) ∧
        trainValPool6.items = some [(30, 0), (40, 0), (50, 0), (60, 0)] ∧
        ((10 : ℚ), (0 : ℚ)) ∉
          [((30 : ℚ), (0 : ℚ)), (40, 0), (50, 0), (60, 0)] :=
  inner_folds_use_global_dataset [0, 1, 2, 3] (by decide)

/-- C2 (violated by the source): on a batch whose two predictions are
`1, 2` with true targets `0, 0`, `test` returns the mean squared error of
the stacked ROWS 1 and 0, which is `1/2`, whereas the mean squared error
between the concatenated predictions and the concatenated targets is
`5/2`. -/
theorem test_mse_row_indexing_bug :
    (test idCtx st0 [[((1 : ℚ), (0 : ℚ)), ((2 : ℚ), (0 : ℚ))]]).2 =
      some (1 / 2) ∧
    meanSquaredError [(1 : ℚ), 2] [(0 : ℚ), 0] = 5 / 2 ∧
    ((1 : ℚ) / 2) ≠ 5 / 2 := by
  refine ⟨?_, ?_, by norm_num⟩
  · norm_num [test, idCtx, meanSquaredError]
  · norm_num [meanSquaredError]

set_option maxHeartbeats 1000000 in
/-- C3 counterexample: on a concrete successful run the orchestrator
collects the per-fold metrics `[0, 0]` and logs their mean, but its return
value is `None`, not the mean it computed. -/
theorem nested_cv_returns_none_counterexample :
    (nested_cv_experiment idCtx cfg0 op0 ips0 pss0).evalLoss = some [0, 0] ∧
    (nested_cv_experiment idCtx cfg0 op0 ips0 pss0).loggedMean =
      some (listMean [0, 0]) ∧
    (nested_cv_experiment idCtx cfg0 op0 ips0 pss0).retval = none ∧
    (nested_cv_experiment idCtx cfg0 op0 ips0 pss0).retval ≠
      some (listMean [0, 0]) := by
  have h : (nested_cv_experiment idCtx cfg0 op0 ips0 pss0).evalLoss =
        some [0, 0] ∧
      (nested_cv_experiment idCtx cfg0 op0 ips0 pss0).loggedMean =
        some (listMean [0, 0]) ∧
      (nested_cv_experiment idCtx cfg0 op0 ips0 pss0).retval = none := by
    norm_num [nested_cv_experiment, outerFoldLoop, outerFoldStep,
      outerFoldStudy, studyOptimize, runTrials, bestTrial, cv_objective,
      innerFoldSubsets, innerFoldLoop, kfoldSplit, foldSizes, chunksBy,
      idCtx, cfg0, dataset0, op0, ips0, pss0, st0, Subset.items, chunkList,
      chunkListAux, train, trainEpochs, train_one_epoch, trainEpochLoop,
      stepState, validate, test, meanSquaredError, listMean, List.mapM,
      List.mapM.loop]
  refine ⟨h.1, h.2.1, h.2.2, ?_⟩
  rw [h.2.2]
  simp

/-- C3 (amended): whenever `nested_cv_experiment` completes without an
exception, it has collected exactly `k_outer` per-fold test metrics, it
logs their arithmetic mean, and the function itself returns `None` rather
than that mean. -/
theorem nested_cv_fold_metrics_and_logged_mean (ctx : TorchCtx α)
    (cfg : ExpConfig α) (outerPerm : List ℕ) (innerPerms : List (List ℕ))
    (proposalss : List (List (ℚ × ℚ))) (ms : List ℚ)
    (h : (nested_cv_experiment ctx cfg outerPerm innerPerms
        proposalss).evalLoss = some ms) :
    ms.length = cfg.k_outer ∧
    (nested_cv_experiment ctx cfg outerPerm innerPerms
        proposalss).loggedMean = some (listMean ms) ∧
    (nested_cv_experiment ctx cfg outerPerm innerPerms
        proposalss).retval = none := by
  simp only [nested_cv_experiment] at h ⊢
  cases hr : outerFoldLoop ctx cfg.dataset cfg.k_inner cfg.num_epochs
      cfg.initState (kfoldSplit cfg.k_outer outerPerm) innerPerms
      proposalss with
  | none => rw [hr] at h; simp at h
  | some r =>
      rw [hr] at h
      obtain rfl : r.2 = ms := by simpa using h
      have hl := outerFoldLoop_length ctx cfg.dataset cfg.k_inner
        cfg.num_epochs (kfoldSplit cfg.k_outer outerPerm) cfg.initState
        innerPerms proposalss r hr
      rw [kfoldSplit_length] at hl
      exact ⟨hl, rfl, rfl⟩

/-- Witness for C3 (amended) at a concrete successful run. -/
theorem nested_cv_fold_metrics_witness :
    ([(0 : ℚ), 0]).length = cfg0.k_outer ∧
    (nested_cv_experiment idCtx cfg0 op0 ips0 pss0).loggedMean =
      some (listMean [(0 : ℚ), 0]) ∧
    (nested_cv_experiment idCtx cfg0 op0 ips0 pss0).retval = none :=
  nested_cv_fold_metrics_and_logged_mean idCtx cfg0 op0 ips0 pss0 [0, 0]
    (by norm_num [nested_cv_experiment, outerFoldLoop, outerFoldStep,
      outerFoldStudy, studyOptimize, runTrials, bestTrial, cv_objective,
      innerFoldSubsets, innerFoldLoop, kfoldSplit, foldSizes, chunksBy,
      idCtx, cfg0, dataset0, op0, ips0, pss0, st0, Subset.items, chunkList,
      chunkListAux, train, trainEpochs, train_one_epoch, trainEpochLoop,
      stepState, validate, test, meanSquaredError, listMean, List.mapM,
      List.mapM.loop])

/-- C4 (violated by the source): with a configuration whose search budget
is `n_trials = 1`, the per-fold study still evaluates the inner CV
objective on 2 proposals, because the source passes the literal
`n_trials=2` to `study.optimize` instead of the configured value; the
trial selected as best does attain the minimum observed loss among the
evaluated trials. -/
theorem search_trials_hardcoded_two :
    cfg4.n_trials = 1 ∧
    (outerFoldStudy idCtx cfg4.dataset cfg4.k_inner cfg4.num_epochs [2, 3]
        [0, 1] [(1, 1), (2, 2)] st0).2 =
      some [((1, 1), 0), ((2, 2), 0)] ∧
    ([((1, 1), 0), ((2, 2), 0)] : List ((ℚ × ℚ) × ℚ)).length = 2 ∧
    cfg4.n_trials < 2 ∧
    bestTrial [((1, 1), 0), ((2, 2), 0)] = some ((1, 1), 0) ∧
    ∀ t ∈ ([((1, 1), 0), ((2, 2), 0)] : List ((ℚ × ℚ) × ℚ)),
      (0 : ℚ) ≤ t.2 := by
  refine ⟨rfl, ?_, rfl, by decide, ?_, ?_⟩
  · norm_num [outerFoldStudy, studyOptimize, runTrials, cv_objective,
      innerFoldSubsets, innerFoldLoop, kfoldSplit, foldSizes, chunksBy,
      idCtx, cfg4, cfg0, dataset0, st0, Subset.items, chunkList,
      chunkListAux, train, trainEpochs, train_one_epoch, trainEpochLoop,
      stepState, validate, meanSquaredError, listMean, List.mapM,
      List.mapM.loop]
  · norm_num [bestTrial]
  · intro t ht
    rcases List.mem_cons.mp ht with h | h
    · rw [h]
    · rcases List.mem_singleton.mp h with rfl
      norm_num

end NestedCV
